import Mathlib

/-!
Verification of the pagination/continuation extraction engine of
`pytube/contrib/channel.py` (class `Channel`): a shallow embedding of the
JSON values the code traverses, of Python's subscript/iteration semantics
restricted to what the code uses, and of the functions `_extract_videos`,
`_extract_shorts`, `_paginate_shorts` and `shorts_url_generator`.

Python exceptions are modelled with `Except PyErr`; the defensive
`try/except` blocks of the source become explicit `match`es on the error
constructor, catching exactly the exception classes the source names.
The on-disk diagnostic dump performed by `_extract_shorts` is recorded as
an explicit write log (first component of its result).
-/

set_option autoImplicit false

/-- A parsed JSON document, as produced by `json.loads`.  Numbers are
modelled as integers; the extractors never do arithmetic on them. -/
inductive JVal where
  | null
  | bool (b : Bool)
  | num (n : Int)
  | str (s : String)
  | arr (xs : List JVal)
  | obj (kvs : List (String × JVal))

/-- The Python exception classes that the extraction pipeline can raise:
`KeyError`, `IndexError`, `TypeError` from subscripting, and
`AttributeError` from calling `.split` on a non-string. -/
inductive PyErr where
  | keyError
  | indexError
  | typeError
  | attributeError
deriving DecidableEq

/-- Dictionary lookup on the association list backing a JSON object. -/
def lookupStr : List (String × JVal) → String → Option JVal
  | [], _ => none
  | (k, v) :: rest, key => if k = key then some v else lookupStr rest key

/-- Python `x[key]` for a string `key`: succeeds only on a dict containing
the key (`KeyError` otherwise); every non-dict raises `TypeError` (strings
and lists demand integer indices, scalars are not subscriptable). -/
def getStrKey : JVal → String → Except PyErr JVal
  | .obj kvs, k =>
    match lookupStr kvs k with
    | some v => .ok v
    | none => .error .keyError
  | _, _ => .error .typeError

/-- Python list indexing with negative-index wraparound:
`xs[i]` with `i < 0` means `xs[i + len(xs)]`; out of range is `IndexError`. -/
def pyListGet (xs : List JVal) (i : Int) : Except PyErr JVal :=
  let j : Int := if i < 0 then i + xs.length else i
  if 0 ≤ j then
    match xs.get? j.toNat with
    | some v => .ok v
    | none => .error .indexError
  else .error .indexError

/-- Python string indexing: yields a one-character string, `IndexError`
when out of range (negative indices wrap as for lists). -/
def pyStrGet (s : String) (i : Int) : Except PyErr JVal :=
  let j : Int := if i < 0 then i + s.data.length else i
  if 0 ≤ j then
    match s.data.get? j.toNat with
    | some ch => .ok (.str (String.mk [ch]))
    | none => .error .indexError
  else .error .indexError

/-- Python `x[i]` for an integer `i`: lists and strings index positionally;
a dict (whose keys here are all strings, as in JSON) raises `KeyError`;
scalars raise `TypeError`. -/
def getIntKey : JVal → Int → Except PyErr JVal
  | .arr xs, i => pyListGet xs i
  | .str s, i => pyStrGet s i
  | .obj _, _ => .error .keyError
  | _, _ => .error .typeError

/-- Python iteration (`map` over a value): lists yield their elements,
dicts yield their keys, strings yield one-character strings, scalars raise
`TypeError`. -/
def pyIter : JVal → Except PyErr (List JVal)
  | .arr xs => .ok xs
  | .obj kvs => .ok (kvs.map fun kv => .str kv.fst)
  | .str s => .ok (s.data.map fun c => .str (String.mk [c]))
  | _ => .error .typeError

/-- Python truthiness of a JSON value, as tested by `if continuation:`. -/
def pyTruthy : JVal → Bool
  | .null => false
  | .bool b => b
  | .num n => n != 0
  | .str s => !s.data.isEmpty
  | .arr xs => !xs.isEmpty
  | .obj kvs => !kvs.isEmpty

/-- Python `str()` of a JSON value as used by f-string interpolation.
Scalar cases follow Python exactly; container reprs are abbreviated —
the extractors only ever interpolate the scalar id field looked up from an
entry, so the container cases are unreachable on well-formed entries and
no claim depends on their exact text. -/
def pyStr : JVal → String
  | .str s => s
  | .num n => toString n
  | .bool true => "True"
  | .bool false => "False"
  | .null => "None"
  | .arr _ => "[...]"
  | .obj _ => "\x7b...\x7d"

/-- Splitting a character list at `'/'`, accumulator-style; mirrors
Python `str.split("/")` (which never returns an empty list). -/
def splitSlash : List Char → List Char → List (List Char)
  | [], acc => [acc.reverse]
  | c :: cs, acc => if c = '/' then acc.reverse :: splitSlash cs [] else splitSlash cs (c :: acc)

/-- Python `url.split("/")[-1]`: the last `/`-separated segment. -/
def lastSlashSegment (s : String) : String :=
  String.mk ((splitSlash s.data []).getLastD [])

/-- Python `list.index` returning the index of the first occurrence, or
`none` where Python raises `ValueError` (which `_paginate_shorts` catches
and ignores). -/
def listIndex : List String → String → Option Nat
  | [], _ => none
  | y :: ys, x => if y = x then some 0 else (listIndex ys x).map (· + 1)

/-- Python `list(map(f, xs))` for a fallible `f`: elements are mapped in
order and the first exception propagates. -/
def mapPy (f : JVal → Except PyErr String) : List JVal → Except PyErr (List String)
  | [] => .ok []
  | x :: xs =>
    match f x with
    | .error e => .error e
    | .ok y =>
      match mapPy f xs with
      | .error e => .error e
      | .ok ys => .ok (y :: ys)

/-- Modelled from the spec: `uniqueify` is defined in `pytube/helpers.py`,
which is not under src/; spec section 4.4 describes it as a stable,
order-preserving deduplication using a seen-set in which the first
occurrence wins. -/
def uniqueifyAux (seen : List String) : List String → List String
  | [] => []
  | x :: xs => if x ∈ seen then uniqueifyAux seen xs else x :: uniqueifyAux (x :: seen) xs

/-- Modelled from the spec: entry point of the seen-set deduplication. -/
def uniqueify (l : List String) : List String :=
  uniqueifyAux [] l

/-- Index of the first occurrence of `x` in `l` (the list length when
absent); used to state the first-occurrence-order property of `uniqueify`. -/
def firstIdx : List String → String → Nat
  | [], _ => 0
  | y :: ys, x => if y = x then 0 else firstIdx ys x + 1

/-- First navigation pattern of `_extract_videos` (channel.py lines
160-164): the initial-page tree shape, tab index 1. -/
def videosShape1 (d : JVal) : Except PyErr JVal := do
  let a ← getStrKey d "contents"
  let b ← getStrKey a "twoColumnBrowseResultsRenderer"
  let c ← getStrKey b "tabs"
  let t ← getIntKey c 1
  let r ← getStrKey t "tabRenderer"
  let g ← getStrKey r "content"
  let h ← getStrKey g "richGridRenderer"
  getStrKey h "contents"

/-- First navigation pattern of `_extract_shorts` (channel.py line 325):
identical to the videos shape except that it reads tab index 2. -/
def shortsShape1 (d : JVal) : Except PyErr JVal := do
  let a ← getStrKey d "contents"
  let b ← getStrKey a "twoColumnBrowseResultsRenderer"
  let c ← getStrKey b "tabs"
  let t ← getIntKey c 2
  let r ← getStrKey t "tabRenderer"
  let g ← getStrKey r "content"
  let h ← getStrKey g "richGridRenderer"
  getStrKey h "contents"

/-- Second navigation pattern (channel.py lines 169-172 and 330-333): the
legacy continuation-response shape with the outer `response` wrapper under
index 1. -/
def contShapeLegacy (d : JVal) : Except PyErr JVal := do
  let a ← getIntKey d 1
  let b ← getStrKey a "response"
  let c ← getStrKey b "onResponseReceivedActions"
  let e ← getIntKey c 0
  let r ← getStrKey e "appendContinuationItemsAction"
  getStrKey r "continuationItems"

/-- Third navigation pattern (channel.py lines 178-180 and 339-341): the
current continuation-response shape without the outer wrapper. -/
def contShapeCurrent (d : JVal) : Except PyErr JVal := do
  let a ← getStrKey d "onResponseReceivedActions"
  let b ← getIntKey a 0
  let c ← getStrKey b "appendContinuationItemsAction"
  getStrKey c "continuationItems"

/-- Nested try/except fallthrough of `_extract_videos`: each `except`
clause catches `(KeyError, IndexError, TypeError)`, which is every
exception a lookup chain can raise, so any failure falls through to the
next pattern and a failure of all three yields `none`. -/
def resolveVideos (d : JVal) : Option JVal :=
  match videosShape1 d with
  | .ok v => some v
  | .error _ =>
    match contShapeLegacy d with
    | .ok v => some v
    | .error _ =>
      match contShapeCurrent d with
      | .ok v => some v
      | .error _ => none

/-- Nested try/except fallthrough of `_extract_shorts`, same structure as
`resolveVideos` with the shorts initial-page pattern first. -/
def resolveShorts (d : JVal) : Option JVal :=
  match shortsShape1 d with
  | .ok v => some v
  | .error _ =>
    match contShapeLegacy d with
    | .ok v => some v
    | .error _ =>
      match contShapeCurrent d with
      | .ok v => some v
      | .error _ => none

/-- The lookup inside the continuation `try` block (channel.py lines
185-189 and 346-350): `videos[-1]['continuationItemRenderer']
['continuationEndpoint']['continuationCommand']['token']`. -/
def contTokenLookup (videos : JVal) : Except PyErr JVal := do
  let a ← getIntKey videos (-1)
  let b ← getStrKey a "continuationItemRenderer"
  let c ← getStrKey b "continuationEndpoint"
  let d ← getStrKey c "continuationCommand"
  getStrKey d "token"

/-- Python `videos[:-1]`: slicing off the last element; only lists and
strings are sliceable. -/
def sliceDropLast : JVal → Except PyErr JVal
  | .arr xs => .ok (.arr xs.dropLast)
  | .str s => .ok (.str (String.mk s.data.dropLast))
  | _ => .error .typeError

/-- The continuation step of both extractors: the token lookup guarded by
`except (KeyError, IndexError)` — and only those two classes, so a
`TypeError` raised by the lookup propagates to the caller. -/
def splitContinuation (videos : JVal) : Except PyErr (JVal × Option JVal) :=
  match contTokenLookup videos with
  | .ok tok =>
    match sliceDropLast videos with
    | .ok rest => .ok (rest, some tok)
    | .error e => .error e
  | .error .keyError => .ok (videos, none)
  | .error .indexError => .ok (videos, none)
  | .error e => .error e

/-- The per-entry lookup of the videos mapper lambda (channel.py lines
200-203): `x['richItemRenderer']['content']['videoRenderer']['videoId']`. -/
def videoIdLookup (x : JVal) : Except PyErr JVal := do
  let a ← getStrKey x "richItemRenderer"
  let b ← getStrKey a "content"
  let c ← getStrKey b "videoRenderer"
  getStrKey c "videoId"

/-- The videos mapper lambda: interpolates the looked-up id into
`/watch?v=...`; a lookup failure propagates (there is no per-entry
try/except in the source). -/
def mapVideoEntry (x : JVal) : Except PyErr String :=
  match videoIdLookup x with
  | .ok v => .ok ("/watch?v=" ++ pyStr v)
  | .error e => .error e

/-- The per-entry lookup of the shorts mapper lambda (channel.py line
363): the seven-key drill down to the web-command url. -/
def shortUrlLookup (x : JVal) : Except PyErr JVal := do
  let a ← getStrKey x "richItemRenderer"
  let b ← getStrKey a "content"
  let c ← getStrKey b "shortsLockupViewModel"
  let d ← getStrKey c "onTap"
  let e ← getStrKey d "innertubeCommand"
  let f ← getStrKey e "commandMetadata"
  let g ← getStrKey f "webCommandMetadata"
  getStrKey g "url"

/-- The shorts mapper lambda: takes the last `/`-segment of the url and
prepends `/shorts/`; calling `.split` on a non-string raises
`AttributeError`, and a lookup failure propagates (no per-entry
try/except in the source). -/
def mapShortEntry (x : JVal) : Except PyErr String :=
  match shortUrlLookup x with
  | .ok (.str s) => .ok ("/shorts/" ++ lastSlashSegment s)
  | .ok _ => .error .attributeError
  | .error e => .error e

/-- Embedding of `Channel._extract_videos` (channel.py lines 147-209):
shape resolution, continuation split, per-entry mapping, per-page
deduplication. -/
def extract_videos (raw : JVal) : Except PyErr (List String × Option JVal) :=
  match resolveVideos raw with
  | none => .ok ([], none)
  | some vs =>
    match splitContinuation vs with
    | .error e => .error e
    | .ok (entries, continuation) =>
      match pyIter entries with
      | .error e => .error e
      | .ok xs =>
        match mapPy mapVideoEntry xs with
        | .error e => .error e
        | .ok ids => .ok (uniqueify ids, continuation)

/-- Embedding of `Channel._extract_shorts` (channel.py lines 305-371).
Before any shape is tried, the parsed document is dumped to the fixed
path `shorts_initial_data.json` (lines 317-320); that filesystem effect
is recorded in the first component of the result as a (path, content)
write log. -/
def extract_shorts (raw : JVal) : List (String × JVal) × Except PyErr (List String × Option JVal) :=
  ([("shorts_initial_data.json", raw)],
    match resolveShorts raw with
    | none => .ok ([], none)
    | some vs =>
      match splitContinuation vs with
      | .error e => .error e
      | .ok (entries, continuation) =>
        match pyIter entries with
        | .error e => .error e
        | .ok xs =>
          match mapPy mapShortEntry xs with
          | .error e => .error e
          | .ok ids => .ok (uniqueify ids, continuation))

/-- Observable outcome of a complete run of the `_paginate_shorts`
generator: the batches it yielded in order, the number of continuation
POST requests it issued, and the exception (if any) that escaped it. -/
structure WalkResult where
  batches : List (List String)
  fetches : Nat
  err : Option PyErr

/-- Whether the continuation loop runs another round.  The source sets
`load_more_url, headers, data` from `_build_continuation_url(continuation)`
when `if continuation:` holds (Python truthiness of the token) and to
`None, None, None` otherwise, and loops `while load_more_url and headers
and data`; since the built triple is always truthy, the loop runs exactly
when the token is present and truthy. -/
def contActive : Option JVal → Bool
  | none => false
  | some t => pyTruthy t

/-- The `while` loop of `_paginate_shorts` (channel.py lines 260-282).
The fetch oracle `pages` lists the bodies successive continuation POSTs
would return; each loop round consumes one.  Note the boundary test on
continuation pages searches for the literal `"/shorts/=" + id`
(channel.py line 270), with a stray `=` absent from the first-page test. -/
def walkLoop (u : Option String) : Option JVal → List JVal → WalkResult
  | _, [] => ⟨[], 0, none⟩
  | c, p :: rest =>
    if contActive c then
      match (extract_shorts p).2 with
      | .error e => ⟨[], 1, some e⟩
      | .ok (videos_urls, continuation) =>
        match u with
        | some wid =>
          match listIndex videos_urls ("/shorts/=" ++ wid) with
          | some i => ⟨[videos_urls.take i], 1, none⟩
          | none =>
            let r := walkLoop u continuation rest
            ⟨videos_urls :: r.batches, r.fetches + 1, r.err⟩
        | none =>
          let r := walkLoop u continuation rest
          ⟨videos_urls :: r.batches, r.fetches + 1, r.err⟩
    else ⟨[], 0, none⟩

/-- Embedding of `Channel._paginate_shorts` (channel.py lines 227-282):
first-page extraction (whose boundary test uses the correct
`"/shorts/" + id` path, line 244), then the continuation loop. -/
def paginate_shorts (initialPage : JVal) (pages : List JVal) (u : Option String) : WalkResult :=
  match (extract_shorts initialPage).2 with
  | .error e => ⟨[], 0, some e⟩
  | .ok (videos_urls, continuation) =>
    match u with
    | some wid =>
      match listIndex videos_urls ("/shorts/" ++ wid) with
      | some i => ⟨[videos_urls.take i], 0, none⟩
      | none =>
        let r := walkLoop u continuation pages
        ⟨videos_urls :: r.batches, r.fetches, r.err⟩
    | none =>
      let r := walkLoop u continuation pages
      ⟨videos_urls :: r.batches, r.fetches, r.err⟩

/-- Modelled from the spec: `Playlist._video_url` (pytube/playlist.py, not
under src/) prepends the site host to a canonical watch path. -/
def video_url (watch_path : String) : String :=
  "https://www.youtube.com" ++ watch_path

/-- Embedding of `Channel.shorts_url_generator` (channel.py lines
284-291): flattens the batches of a full boundary-free walk, mapping each
reference through `_video_url`. -/
def shorts_url_generator (initialPage : JVal) (pages : List JVal) : List String :=
  ((paginate_shorts initialPage pages none).batches.flatten).map video_url

/-- A well-formed page chain: each page of the chain but the last yields
its listed batch together with a (truthy) continuation token, and the
last page yields its batch with no token. -/
def chainOk : List JVal → List (List String) → Prop
  | [p], [r] => (extract_shorts p).2 = Except.ok (r, none)
  | p :: q :: ps, r :: rs =>
    (∃ t, (extract_shorts p).2 = Except.ok (r, some t) ∧ pyTruthy t = true) ∧
      chainOk (q :: ps) rs
  | _, _ => False

/-- A well-formed shorts listing row: the seven-key nest ending in a
`/shorts/<id>` web-command url. -/
def shortEntry (id : String) : JVal :=
  .obj [("richItemRenderer", .obj [("content", .obj [("shortsLockupViewModel",
    .obj [("onTap", .obj [("innertubeCommand", .obj [("commandMetadata",
      .obj [("webCommandMetadata", .obj [("url", .str ("/shorts/" ++ id))])])])])])])])]

/-- A well-formed videos listing row with the given video id. -/
def videoEntry (id : String) : JVal :=
  .obj [("richItemRenderer", .obj [("content", .obj [("videoRenderer",
    .obj [("videoId", .str id)])])])]

/-- A trailing continuation-marker row carrying the given token. -/
def contMarker (tok : String) : JVal :=
  .obj [("continuationItemRenderer", .obj [("continuationEndpoint",
    .obj [("continuationCommand", .obj [("token", .str tok)])])])]

/-- A raw page in the current continuation-response shape (pattern 3). -/
def pageOfEntries (entries : List JVal) : JVal :=
  .obj [("onResponseReceivedActions", .arr [.obj [("appendContinuationItemsAction",
    .obj [("continuationItems", .arr entries)])]])]

/-- A raw page in the legacy continuation-response shape (pattern 2). -/
def legacyContPage (entries : List JVal) : JVal :=
  .arr [.null, .obj [("response", .obj [("onResponseReceivedActions",
    .arr [.obj [("appendContinuationItemsAction",
      .obj [("continuationItems", .arr entries)])]])])]]

/-- A raw page in the shorts initial-page shape (pattern 1, tab index 2). -/
def shortsInitialPage (entries : List JVal) : JVal :=
  .obj [("contents", .obj [("twoColumnBrowseResultsRenderer", .obj [("tabs",
    .arr [.null, .null, .obj [("tabRenderer", .obj [("content",
      .obj [("richGridRenderer", .obj [("contents", .arr entries)])])])]])])])]

/-- A raw page in the videos initial-page shape (pattern 1, tab index 1). -/
def videosInitialPage (entries : List JVal) : JVal :=
  .obj [("contents", .obj [("twoColumnBrowseResultsRenderer", .obj [("tabs",
    .arr [.null, .obj [("tabRenderer", .obj [("content",
      .obj [("richGridRenderer", .obj [("contents", .arr entries)])])])]])])])]

/-- First page of the running two-page example: shorts a, b, c and a
continuation token T1. -/
def examplePage1 : JVal :=
  pageOfEntries [shortEntry "a", shortEntry "b", shortEntry "c", contMarker "T1"]

/-- Second page of the running example: shorts c (repeated from page 1)
and d, no token. -/
def examplePage2 : JVal :=
  pageOfEntries [shortEntry "c", shortEntry "d"]

/-- First page of the boundary-cutoff scenario: shorts a, b and token T1. -/
def boundaryPage1 : JVal :=
  pageOfEntries [shortEntry "a", shortEntry "b", contMarker "T1"]

/-- Second page of the boundary-cutoff scenario: the boundary id `x` sits
at index 1, and a further token T2 is present. -/
def boundaryPage2 : JVal :=
  pageOfEntries [shortEntry "y", shortEntry "x", shortEntry "w", contMarker "T2"]

/-- Third page of the boundary-cutoff scenario. -/
def boundaryPage3 : JVal :=
  pageOfEntries [shortEntry "z"]

/-- A listing row that matches neither the item shape nor the
continuation-marker shape (a dict with an unexpected key). -/
def badEntry : JVal :=
  .obj [("unexpected", .str "noise")]

/-- A resolved page holding one well-formed entry and one malformed
entry. -/
def mixedPage : JVal :=
  pageOfEntries [shortEntry "a", badEntry]

/-- A resolved page whose trailing entry is a bare string: subscripting it
with `'continuationItemRenderer'` raises `TypeError`. -/
def strTailPage : JVal :=
  pageOfEntries [shortEntry "a", .str "unexpected-trailing"]

/-- A tokenless single-entry page, used as the final page of chains. -/
def finalPage : JVal :=
  pageOfEntries [shortEntry "d"]

/-- A spare page for the fetch oracle, to witness that it is never
requested. -/
def sparePage : JVal :=
  pageOfEntries [shortEntry "never-fetched"]

/-- Membership in the seen-set deduplication: an element survives exactly
when it occurs in the input and is not already seen. -/
theorem mem_uniqueifyAux (l : List String) :
    ∀ (seen : List String) (x : String),
      x ∈ uniqueifyAux seen l ↔ (x ∈ l ∧ x ∉ seen) := by
  induction l with
  | nil => intro seen x; simp [uniqueifyAux]
  | cons y ys ih =>
    intro seen x
    by_cases hy : y ∈ seen
    · rw [uniqueifyAux, if_pos hy, ih]
      constructor
      · rintro ⟨hx, hs⟩; exact ⟨List.mem_cons_of_mem y hx, hs⟩
      · rintro ⟨hx, hs⟩
        cases List.mem_cons.mp hx with
        | inl h => exact absurd (h ▸ hy) hs
        | inr h => exact ⟨h, hs⟩
    · rw [uniqueifyAux, if_neg hy]
      constructor
      · intro hx
        cases List.mem_cons.mp hx with
        | inl h => exact ⟨List.mem_cons.mpr (Or.inl h), h ▸ hy⟩
        | inr h =>
          have := (ih (y :: seen) x).mp h
          exact ⟨List.mem_cons_of_mem y this.1,
            fun hs => this.2 (List.mem_cons_of_mem y hs)⟩
      · rintro ⟨hx, hs⟩
        by_cases hxy : x = y
        · exact List.mem_cons.mpr (Or.inl hxy)
        · cases List.mem_cons.mp hx with
          | inl h => exact absurd h hxy
          | inr h =>
            refine List.mem_cons_of_mem y ((ih (y :: seen) x).mpr ⟨h, ?_⟩)
            intro hc
            cases List.mem_cons.mp hc with
            | inl h' => exact hxy h'
            | inr h' => exact hs h'

/-- The deduplicated list has no duplicates. -/
theorem nodup_uniqueifyAux (l : List String) :
    ∀ seen : List String, (uniqueifyAux seen l).Nodup := by
  induction l with
  | nil => intro seen; simp [uniqueifyAux]
  | cons y ys ih =>
    intro seen
    by_cases hy : y ∈ seen
    · rw [uniqueifyAux, if_pos hy]; exact ih seen
    · rw [uniqueifyAux, if_neg hy, List.nodup_cons]
      refine ⟨fun hmem => ?_, ih (y :: seen)⟩
      exact ((mem_uniqueifyAux ys (y :: seen) y).mp hmem).2 (List.mem_cons_self y seen)

/-- The deduplicated list is a subsequence of the input (relative order of
the kept occurrences is preserved). -/
theorem sublist_uniqueifyAux (l : List String) :
    ∀ seen : List String, List.Sublist (uniqueifyAux seen l) l := by
  induction l with
  | nil => intro seen; simp [uniqueifyAux]
  | cons y ys ih =>
    intro seen
    by_cases hy : y ∈ seen
    · rw [uniqueifyAux, if_pos hy]; exact (ih seen).cons y
    · rw [uniqueifyAux, if_neg hy]; exact (ih (y :: seen)).cons₂ y

/-- On an input with no duplicates and disjoint from the seen-set, the
deduplication is the identity. -/
theorem uniqueifyAux_of_nodup (l : List String) :
    ∀ seen : List String, l.Nodup → (∀ x ∈ l, x ∉ seen) → uniqueifyAux seen l = l := by
  induction l with
  | nil => intro seen _ _; rfl
  | cons y ys ih =>
    intro seen hnd hdisj
    have hy : y ∉ seen := hdisj y (List.mem_cons_self y ys)
    rw [uniqueifyAux, if_neg hy]
    have hnd' := List.nodup_cons.mp hnd
    congr 1
    refine ih (y :: seen) hnd'.2 fun x hx hc => ?_
    cases List.mem_cons.mp hc with
    | inl h => exact hnd'.1 (h ▸ hx)
    | inr h => exact hdisj x (List.mem_cons_of_mem y hx) h

/-- Head-index computation: distinct head shifts the first-occurrence
index by one. -/
theorem firstIdx_cons_ne (y x : String) (ys : List String) (h : ¬ y = x) :
    firstIdx (y :: ys) x = firstIdx ys x + 1 := by
  rw [firstIdx, if_neg h]

/-- The deduplicated list is sorted by first-occurrence index in the
original list. -/
theorem pairwise_firstIdx_uniqueifyAux (l : List String) :
    ∀ seen : List String,
      List.Pairwise (fun a b => firstIdx l a < firstIdx l b) (uniqueifyAux seen l) := by
  induction l with
  | nil => intro seen; simp [uniqueifyAux]
  | cons y ys ih =>
    intro seen
    by_cases hy : y ∈ seen
    · rw [uniqueifyAux, if_pos hy]
      refine (ih seen).imp_of_mem ?_
      intro a b ha hb hab
      have hay : ¬ y = a := fun h =>
        ((mem_uniqueifyAux ys seen a).mp ha).2 (h ▸ hy)
      have hby : ¬ y = b := fun h =>
        ((mem_uniqueifyAux ys seen b).mp hb).2 (h ▸ hy)
      rw [firstIdx_cons_ne y a ys hay, firstIdx_cons_ne y b ys hby]
      exact Nat.succ_lt_succ hab
    · rw [uniqueifyAux, if_neg hy, List.pairwise_cons]
      constructor
      · intro b hb
        have hbmem := (mem_uniqueifyAux ys (y :: seen) b).mp hb
        have hby : ¬ y = b := fun h => hbmem.2 (h ▸ List.mem_cons_self y seen)
        rw [firstIdx_cons_ne y b ys hby, firstIdx, if_pos rfl]
        exact Nat.succ_pos _
      · refine (ih (y :: seen)).imp_of_mem ?_
        intro a b ha hb hab
        have hay : ¬ y = a := fun h =>
          ((mem_uniqueifyAux ys (y :: seen) a).mp ha).2 (h ▸ List.mem_cons_self y seen)
        have hby : ¬ y = b := fun h =>
          ((mem_uniqueifyAux ys (y :: seen) b).mp hb).2 (h ▸ List.mem_cons_self y seen)
        rw [firstIdx_cons_ne y a ys hay, firstIdx_cons_ne y b ys hby]
        exact Nat.succ_lt_succ hab

/-- Membership characterization at the top level. -/
theorem mem_uniqueify (l : List String) (x : String) :
    x ∈ uniqueify l ↔ x ∈ l := by
  rw [uniqueify, mem_uniqueifyAux]
  simp

/-- The output of `uniqueify` has no duplicates. -/
theorem nodup_uniqueify (l : List String) : (uniqueify l).Nodup :=
  nodup_uniqueifyAux l []

/-- Inversion for the eager fallible map: every output element is the
successful image of some input element. -/
theorem mapPy_ok_mem (f : JVal → Except PyErr String) (xs : List JVal) :
    ∀ ys, mapPy f xs = Except.ok ys → ∀ y ∈ ys, ∃ x ∈ xs, f x = Except.ok y := by
  induction xs with
  | nil =>
    intro ys h y hy
    rw [mapPy] at h
    cases h
    cases hy
  | cons x xs ih =>
    intro ys h y hy
    rw [mapPy] at h
    cases hfx : f x with
    | error e => rw [hfx] at h; cases h
    | ok y0 =>
      rw [hfx] at h
      cases hrec : mapPy f xs with
      | error e => rw [hrec] at h; cases h
      | ok ys0 =>
        rw [hrec] at h
        cases h
        cases List.mem_cons.mp hy with
        | inl hh => exact ⟨x, List.mem_cons_self x xs, hh ▸ hfx⟩
        | inr hh =>
          obtain ⟨x', hx', hfx'⟩ := ih ys0 hrec y hh
          exact ⟨x', List.mem_cons_of_mem x hx', hfx'⟩

/-- A successful shorts mapping always produces a `/shorts/`-prefixed
canonical path. -/
theorem mapShortEntry_ok_shape (x : JVal) (r : String) :
    mapShortEntry x = Except.ok r → ∃ t, r = "/shorts/" ++ t := by
  intro h
  rw [mapShortEntry] at h
  cases hu : shortUrlLookup x with
  | error e => rw [hu] at h; cases h
  | ok v =>
    rw [hu] at h
    cases v with
    | str s => cases h; exact ⟨lastSlashSegment s, rfl⟩
    | null => cases h
    | bool b => cases h
    | num n => cases h
    | arr xs => cases h
    | obj kvs => cases h

/-- A successful videos mapping always produces a `/watch?v=`-prefixed
canonical path. -/
theorem mapVideoEntry_ok_shape (x : JVal) (r : String) :
    mapVideoEntry x = Except.ok r → ∃ t, r = "/watch?v=" ++ t := by
  intro h
  rw [mapVideoEntry] at h
  cases hu : videoIdLookup x with
  | error e => rw [hu] at h; cases h
  | ok v => rw [hu] at h; cases h; exact ⟨pyStr v, rfl⟩

/-- A successful shorts extraction yields a duplicate-free batch whose
every reference is `/shorts/`-prefixed. -/
theorem extract_shorts_ok_props (d : JVal) (refs : List String) (c : Option JVal) :
    (extract_shorts d).2 = Except.ok (refs, c) →
      refs.Nodup ∧ ∀ r ∈ refs, ∃ t, r = "/shorts/" ++ t := by
  intro h
  rw [extract_shorts] at h
  simp only at h
  cases hres : resolveShorts d with
  | none =>
    simp only [hres, Except.ok.injEq, Prod.mk.injEq] at h
    obtain ⟨h1, h2⟩ := h
    subst h1
    exact ⟨List.nodup_nil, fun r hr => absurd hr (List.not_mem_nil r)⟩
  | some vs =>
    simp only [hres] at h
    cases hsplit : splitContinuation vs with
    | error e => simp only [hsplit] at h; cases h
    | ok pr =>
      obtain ⟨entries, continuation⟩ := pr
      simp only [hsplit] at h
      cases hiter : pyIter entries with
      | error e => simp only [hiter] at h; cases h
      | ok xs =>
        simp only [hiter] at h
        cases hmap : mapPy mapShortEntry xs with
        | error e => simp only [hmap] at h; cases h
        | ok ids =>
          simp only [hmap, Except.ok.injEq, Prod.mk.injEq] at h
          obtain ⟨h1, h2⟩ := h
          subst h1
          refine ⟨nodup_uniqueify ids, fun r hr => ?_⟩
          have hmem := (mem_uniqueify ids r).mp hr
          obtain ⟨x, _, hfx⟩ := mapPy_ok_mem mapShortEntry xs ids hmap r hmem
          exact mapShortEntry_ok_shape x r hfx

/-- A successful videos extraction yields a duplicate-free batch whose
every reference is `/watch?v=`-prefixed. -/
theorem extract_videos_ok_props (d : JVal) (refs : List String) (c : Option JVal) :
    extract_videos d = Except.ok (refs, c) →
      refs.Nodup ∧ ∀ r ∈ refs, ∃ t, r = "/watch?v=" ++ t := by
  intro h
  rw [extract_videos] at h
  cases hres : resolveVideos d with
  | none =>
    simp only [hres, Except.ok.injEq, Prod.mk.injEq] at h
    obtain ⟨h1, h2⟩ := h
    subst h1
    exact ⟨List.nodup_nil, fun r hr => absurd hr (List.not_mem_nil r)⟩
  | some vs =>
    simp only [hres] at h
    cases hsplit : splitContinuation vs with
    | error e => simp only [hsplit] at h; cases h
    | ok pr =>
      obtain ⟨entries, continuation⟩ := pr
      simp only [hsplit] at h
      cases hiter : pyIter entries with
      | error e => simp only [hiter] at h; cases h
      | ok xs =>
        simp only [hiter] at h
        cases hmap : mapPy mapVideoEntry xs with
        | error e => simp only [hmap] at h; cases h
        | ok ids =>
          simp only [hmap, Except.ok.injEq, Prod.mk.injEq] at h
          obtain ⟨h1, h2⟩ := h
          subst h1
          refine ⟨nodup_uniqueify ids, fun r hr => ?_⟩
          have hmem := (mem_uniqueify ids r).mp hr
          obtain ⟨x, _, hfx⟩ := mapPy_ok_mem mapVideoEntry xs ids hmap r hmem
          exact mapVideoEntry_ok_shape x r hfx

/-- With no active continuation, the loop produces nothing and fetches
nothing. -/
theorem walkLoop_none_cont (u : Option String) (l : List JVal) :
    walkLoop u none l = ⟨[], 0, none⟩ := by
  cases l with
  | nil => rfl
  | cons p rest => rfl

/-- Every batch yielded by the continuation loop is a successful
extraction result or a prefix of one. -/
theorem walkLoop_batches (pages : List JVal) :
    ∀ (c : Option JVal) (u : Option String) (b : List String),
      b ∈ (walkLoop u c pages).batches →
      ∃ d refs cc, (extract_shorts d).2 = Except.ok (refs, cc) ∧
        (b = refs ∨ ∃ i, b = refs.take i) := by
  induction pages with
  | nil => intro c u b hb; exact absurd hb (List.not_mem_nil b)
  | cons p rest ih =>
    intro c u b hb
    simp only [walkLoop] at hb
    by_cases hc : contActive c = true
    · rw [if_pos hc] at hb
      cases hext : (extract_shorts p).2 with
      | error e => simp only [hext] at hb; exact absurd hb (List.not_mem_nil b)
      | ok pr =>
        obtain ⟨refs, cont⟩ := pr
        simp only [hext] at hb
        cases u with
        | some wid =>
          cases hidx : listIndex refs ("/shorts/=" ++ wid) with
          | some i =>
            simp only [hidx] at hb
            have hb' : b = refs.take i := List.mem_singleton.mp hb
            exact ⟨p, refs, cont, hext, Or.inr ⟨i, hb'⟩⟩
          | none =>
            simp only [hidx] at hb
            cases List.mem_cons.mp hb with
            | inl hh => exact ⟨p, refs, cont, hext, Or.inl hh⟩
            | inr hh => exact ih cont (some wid) b hh
        | none =>
          cases List.mem_cons.mp hb with
          | inl hh => exact ⟨p, refs, cont, hext, Or.inl hh⟩
          | inr hh => exact ih cont none b hh
    · rw [if_neg hc] at hb
      exact absurd hb (List.not_mem_nil b)

/-- Every batch yielded by a complete `_paginate_shorts` run is a
successful extraction result or a prefix of one. -/
theorem paginate_batches (initialPage : JVal) (pages : List JVal)
    (u : Option String) (b : List String) :
    b ∈ (paginate_shorts initialPage pages u).batches →
    ∃ d refs cc, (extract_shorts d).2 = Except.ok (refs, cc) ∧
      (b = refs ∨ ∃ i, b = refs.take i) := by
  intro hb
  simp only [paginate_shorts] at hb
  cases hext : (extract_shorts initialPage).2 with
  | error e => simp only [hext] at hb; exact absurd hb (List.not_mem_nil b)
  | ok pr =>
    obtain ⟨refs, cont⟩ := pr
    simp only [hext] at hb
    cases u with
    | some wid =>
      cases hidx : listIndex refs ("/shorts/" ++ wid) with
      | some i =>
        simp only [hidx] at hb
        have hb' : b = refs.take i := List.mem_singleton.mp hb
        exact ⟨initialPage, refs, cont, hext, Or.inr ⟨i, hb'⟩⟩
      | none =>
        simp only [hidx] at hb
        cases List.mem_cons.mp hb with
        | inl hh => exact ⟨initialPage, refs, cont, hext, Or.inl hh⟩
        | inr hh => exact walkLoop_batches pages cont (some wid) b hh
    | none =>
      cases List.mem_cons.mp hb with
      | inl hh => exact ⟨initialPage, refs, cont, hext, Or.inl hh⟩
      | inr hh => exact walkLoop_batches pages cont none b hh

/-- Per-batch invariant of the shorts walker: each yielded batch has no
duplicates and contains only `/shorts/`-prefixed canonical paths. -/
theorem paginate_batch_props (initialPage : JVal) (pages : List JVal)
    (u : Option String) (b : List String) :
    b ∈ (paginate_shorts initialPage pages u).batches →
    b.Nodup ∧ ∀ r ∈ b, ∃ t, r = "/shorts/" ++ t := by
  intro hb
  obtain ⟨d, refs, cc, hext, hb'⟩ := paginate_batches initialPage pages u b hb
  obtain ⟨hnd, hshape⟩ := extract_shorts_ok_props d refs cc hext
  cases hb' with
  | inl hh =>
    subst hh
    exact ⟨hnd, hshape⟩
  | inr hh =>
    obtain ⟨i, rfl⟩ := hh
    refine ⟨hnd.sublist (List.take_sublist i refs), fun r hr => ?_⟩
    exact hshape r ((List.take_sublist i refs).subset hr)

/-- One successful round of the continuation loop without a boundary:
fetch the page, yield its batch, continue with its token. -/
theorem walkLoop_step_none (t p : JVal) (rest : List JVal) (refs : List String)
    (cont : Option JVal) (ht : pyTruthy t = true)
    (hext : (extract_shorts p).2 = Except.ok (refs, cont)) :
    walkLoop none (some t) (p :: rest) =
      ⟨refs :: (walkLoop none cont rest).batches,
        (walkLoop none cont rest).fetches + 1,
        (walkLoop none cont rest).err⟩ := by
  have hact : contActive (some t) = true := ht
  simp only [walkLoop, hact, if_true, hext]

/-- Running the continuation loop down a well-formed chain with an active
token yields exactly the chain's batches with one fetch per chain page,
regardless of extra pages waiting behind the chain in the fetch oracle. -/
theorem walkLoop_chain (extra : List JVal) :
    ∀ (pages : List JVal) (refs : List (List String)) (t : JVal),
      pyTruthy t = true → chainOk pages refs →
      walkLoop none (some t) (pages ++ extra) = ⟨refs, pages.length, none⟩ := by
  intro pages
  induction pages with
  | nil =>
    intro refs t ht hc
    cases refs with
    | nil => exact absurd hc id
    | cons r rs => exact absurd hc id
  | cons p ps ih =>
    intro refs t ht hc
    cases refs with
    | nil =>
      cases ps with
      | nil => exact absurd hc id
      | cons q ps' => exact absurd hc id
    | cons r rs =>
      cases ps with
      | nil =>
        cases rs with
        | nil =>
          have hc' : (extract_shorts p).2 = Except.ok (r, none) := hc
          rw [List.cons_append, List.nil_append,
            walkLoop_step_none t p extra r none ht hc', walkLoop_none_cont]
          rfl
        | cons r2 rs2 => exact absurd hc id
      | cons q ps' =>
        obtain ⟨⟨t2, ht2, htt⟩, hrest⟩ := hc
        have hrec := ih rs t2 htt hrest
        rw [List.cons_append,
          walkLoop_step_none t p ((q :: ps') ++ extra) r (some t2) ht ht2, hrec]
        rfl

/-- C1 counterexample: a two-page walk (shorts a, b, c plus a token, then
c, d) whose flattened `shorts_url_generator` output repeats `/shorts/c` —
a reference emitted in an earlier batch appears again in a later batch,
so deduplication does not apply across pages. -/
theorem C1_counterexample :
    shorts_url_generator examplePage1 [examplePage2] =
      ["https://www.youtube.com/shorts/a", "https://www.youtube.com/shorts/b",
        "https://www.youtube.com/shorts/c", "https://www.youtube.com/shorts/c",
        "https://www.youtube.com/shorts/d"] ∧
      ¬ List.Nodup (shorts_url_generator examplePage1 [examplePage2]) :=
  ⟨rfl, by decide⟩

/-- C1 (amended): deduplication applies within each page only — every
batch emitted by a boundary-free walk is internally duplicate-free (first
occurrence kept, relative order preserved, by `extract_shorts_ok_props`),
but a reference from an earlier batch may reappear in a later batch of
the flattened sequence. -/
theorem C1_per_page_dedup (initialPage : JVal) (pages : List JVal) (b : List String)
    (hb : b ∈ (paginate_shorts initialPage pages none).batches) :
    b.Nodup :=
  (paginate_batch_props initialPage pages none b hb).1

/-- Witness for C1 (amended): the first batch of the running example walk
is duplicate-free. -/
theorem C1_per_page_dedup_witness :
    ["/shorts/a", "/shorts/b", "/shorts/c"] ∈
        (paginate_shorts examplePage1 [examplePage2] none).batches ∧
      List.Nodup ["/shorts/a", "/shorts/b", "/shorts/c"] :=
  ⟨by decide, C1_per_page_dedup examplePage1 [examplePage2]
    ["/shorts/a", "/shorts/b", "/shorts/c"] (by decide)⟩

/-- C2: evaluation of the walker at the failing input.  The boundary id
`x` occurs in page 2 (its canonical path sits at index 1 of the page-2
batch), yet the walk emits page 2 in full and issues the fetch for page 3
(two continuation fetches in total), because the continuation-page
boundary test of `_paginate_shorts` (channel.py line 270) searches for
the literal `"/shorts/=x"` instead of `"/shorts/x"` as on line 244. -/
theorem C2_code_behavior :
    listIndex ["/shorts/y", "/shorts/x", "/shorts/w"] ("/shorts/" ++ "x") = some 1 ∧
      paginate_shorts boundaryPage1 [boundaryPage2, boundaryPage3] (some "x") =
        ⟨[["/shorts/a", "/shorts/b"], ["/shorts/y", "/shorts/x", "/shorts/w"],
          ["/shorts/z"]], 2, none⟩ :=
  ⟨rfl, rfl⟩

/-- C3 counterexample: a resolved page holding one well-formed and one
malformed entry does not yield the single good reference — the malformed
entry's lookup failure escapes as `KeyError` and aborts the whole
extraction (there is no per-entry try/except in the mapper lambda). -/
theorem C3_counterexample :
    resolveShorts mixedPage = some (.arr [shortEntry "a", badEntry]) ∧
      mapShortEntry (shortEntry "a") = Except.ok "/shorts/a" ∧
      mapShortEntry badEntry = Except.error PyErr.keyError ∧
      (extract_shorts mixedPage).2 = Except.error PyErr.keyError :=
  ⟨rfl, rfl, rfl, rfl⟩

/-- C3 (amended): entry-level mismatches are not tolerated — whenever any
entry of a resolved page fails to map, the mapping exception propagates
and the extraction aborts with that error, for both extractors. -/
theorem C3_mapping_aborts :
    (∀ (d vs entries : JVal) (c : Option JVal) (xs : List JVal) (e : PyErr),
        resolveShorts d = some vs →
        splitContinuation vs = Except.ok (entries, c) →
        pyIter entries = Except.ok xs →
        mapPy mapShortEntry xs = Except.error e →
        (extract_shorts d).2 = Except.error e) ∧
      (∀ (d vs entries : JVal) (c : Option JVal) (xs : List JVal) (e : PyErr),
        resolveVideos d = some vs →
        splitContinuation vs = Except.ok (entries, c) →
        pyIter entries = Except.ok xs →
        mapPy mapVideoEntry xs = Except.error e →
        extract_videos d = Except.error e) := by
  constructor
  · intro d vs entries c xs e h1 h2 h3 h4
    simp only [extract_shorts, h1, h2, h3, h4]
  · intro d vs entries c xs e h1 h2 h3 h4
    simp only [extract_videos, h1, h2, h3, h4]

/-- Witness for C3 (amended): the mixed page aborts with `KeyError`. -/
theorem C3_mapping_aborts_witness :
    (extract_shorts mixedPage).2 = Except.error PyErr.keyError :=
  C3_mapping_aborts.1 mixedPage (.arr [shortEntry "a", badEntry])
    (.arr [shortEntry "a", badEntry]) none [shortEntry "a", badEntry]
    PyErr.keyError rfl rfl rfl rfl

/-- C4 counterexample: a resolved page whose trailing entry is a bare
string — it does not match the continuation shape, yet the extraction is
not exception-free: subscripting the string raises `TypeError`, which the
`except (KeyError, IndexError)` clause does not catch, so the error
escapes the extractor. -/
theorem C4_counterexample :
    resolveShorts strTailPage =
        some (.arr [shortEntry "a", .str "unexpected-trailing"]) ∧
      contTokenLookup (.arr [shortEntry "a", .str "unexpected-trailing"]) =
        Except.error PyErr.typeError ∧
      (extract_shorts strTailPage).2 = Except.error PyErr.typeError :=
  ⟨rfl, rfl, rfl⟩

/-- C4 (amended): a token is returned iff the trailing entry matches the
continuation shape, and on a match the remaining entries are all but the
last in unchanged order; a failed match that raises `KeyError` or
`IndexError` returns all entries unchanged with no token; but a trailing
entry whose lookup raises `TypeError` (e.g. a non-dict) propagates the
exception instead of being treated as "no continuation". -/
theorem C4_continuation_split (vs : List JVal) :
    (∀ t, contTokenLookup (.arr vs) = Except.ok t →
        splitContinuation (.arr vs) = Except.ok (.arr vs.dropLast, some t)) ∧
      (∀ es t, splitContinuation (.arr vs) = Except.ok (es, some t) →
        contTokenLookup (.arr vs) = Except.ok t) ∧
      (contTokenLookup (.arr vs) = Except.error PyErr.keyError →
        splitContinuation (.arr vs) = Except.ok (.arr vs, none)) ∧
      (contTokenLookup (.arr vs) = Except.error PyErr.indexError →
        splitContinuation (.arr vs) = Except.ok (.arr vs, none)) ∧
      (contTokenLookup (.arr vs) = Except.error PyErr.typeError →
        splitContinuation (.arr vs) = Except.error PyErr.typeError) := by
  refine ⟨?_, ?_, ?_, ?_, ?_⟩
  · intro t h
    simp only [splitContinuation, h, sliceDropLast]
  · intro es t h
    cases hl : contTokenLookup (JVal.arr vs) with
    | ok tok =>
      simp only [splitContinuation, hl, sliceDropLast, Except.ok.injEq,
        Prod.mk.injEq, Option.some.injEq] at h
      rw [h.2]
    | error e =>
      cases e with
      | keyError =>
        simp only [splitContinuation, hl, Except.ok.injEq, Prod.mk.injEq] at h
        exact Option.noConfusion h.2
      | indexError =>
        simp only [splitContinuation, hl, Except.ok.injEq, Prod.mk.injEq] at h
        exact Option.noConfusion h.2
      | typeError => simp only [splitContinuation, hl] at h; cases h
      | attributeError => simp only [splitContinuation, hl] at h; cases h
  · intro h; simp only [splitContinuation, h]
  · intro h; simp only [splitContinuation, h]
  · intro h; simp only [splitContinuation, h]

/-- Witness for C4 (amended): each clause applied at a concrete entry
list — a marker-terminated page, a mismatching dict tail, an empty page,
and a string tail. -/
theorem C4_continuation_split_witness :
    splitContinuation (.arr [shortEntry "a", contMarker "T1"]) =
        Except.ok (.arr [shortEntry "a"], some (.str "T1")) ∧
      contTokenLookup (.arr [shortEntry "a", contMarker "T1"]) =
        Except.ok (.str "T1") ∧
      splitContinuation (.arr [shortEntry "a", badEntry]) =
        Except.ok (.arr [shortEntry "a", badEntry], none) ∧
      splitContinuation (.arr []) = Except.ok (.arr [], none) ∧
      splitContinuation (.arr [.str "unexpected-trailing"]) =
        Except.error PyErr.typeError :=
  ⟨(C4_continuation_split [shortEntry "a", contMarker "T1"]).1 (.str "T1") rfl,
    (C4_continuation_split [shortEntry "a", contMarker "T1"]).2.1
      (.arr [shortEntry "a"]) (.str "T1") rfl,
    (C4_continuation_split [shortEntry "a", badEntry]).2.2.1 rfl,
    (C4_continuation_split []).2.2.2.1 rfl,
    (C4_continuation_split [.str "unexpected-trailing"]).2.2.2.2 rfl⟩

/-- C5: the shape resolvers try the three known tree shapes in fixed
priority order (initial-page shape, legacy continuation shape, current
continuation shape); a lookup failure in one shape falls through to the
next without raising, and when all three fail the extractor returns an
empty batch and no token instead of an error — for both extractors. -/
theorem C5_shape_fallthrough (d : JVal) :
    (∀ v, shortsShape1 d = Except.ok v → resolveShorts d = some v) ∧
      (∀ e v, shortsShape1 d = Except.error e → contShapeLegacy d = Except.ok v →
        resolveShorts d = some v) ∧
      (∀ e1 e2 v, shortsShape1 d = Except.error e1 →
        contShapeLegacy d = Except.error e2 → contShapeCurrent d = Except.ok v →
        resolveShorts d = some v) ∧
      (∀ e1 e2 e3, shortsShape1 d = Except.error e1 →
        contShapeLegacy d = Except.error e2 → contShapeCurrent d = Except.error e3 →
        resolveShorts d = none ∧ (extract_shorts d).2 = Except.ok ([], none)) ∧
      (∀ v, videosShape1 d = Except.ok v → resolveVideos d = some v) ∧
      (∀ e v, videosShape1 d = Except.error e → contShapeLegacy d = Except.ok v →
        resolveVideos d = some v) ∧
      (∀ e1 e2 v, videosShape1 d = Except.error e1 →
        contShapeLegacy d = Except.error e2 → contShapeCurrent d = Except.ok v →
        resolveVideos d = some v) ∧
      (∀ e1 e2 e3, videosShape1 d = Except.error e1 →
        contShapeLegacy d = Except.error e2 → contShapeCurrent d = Except.error e3 →
        resolveVideos d = none ∧ extract_videos d = Except.ok ([], none)) := by
  refine ⟨?_, ?_, ?_, ?_, ?_, ?_, ?_, ?_⟩
  · intro v h; simp only [resolveShorts, h]
  · intro e v h1 h2; simp only [resolveShorts, h1, h2]
  · intro e1 e2 v h1 h2 h3; simp only [resolveShorts, h1, h2, h3]
  · intro e1 e2 e3 h1 h2 h3
    have hres : resolveShorts d = none := by simp only [resolveShorts, h1, h2, h3]
    exact ⟨hres, by simp only [extract_shorts, hres]⟩
  · intro v h; simp only [resolveVideos, h]
  · intro e v h1 h2; simp only [resolveVideos, h1, h2]
  · intro e1 e2 v h1 h2 h3; simp only [resolveVideos, h1, h2, h3]
  · intro e1 e2 e3 h1 h2 h3
    have hres : resolveVideos d = none := by simp only [resolveVideos, h1, h2, h3]
    exact ⟨hres, by simp only [extract_videos, hres]⟩

/-- Witness for C5: a page per shape for each extractor, plus the
all-shapes-fail document `null`. -/
theorem C5_shape_fallthrough_witness :
    resolveShorts (shortsInitialPage [shortEntry "a"]) = some (.arr [shortEntry "a"]) ∧
      resolveShorts (legacyContPage [shortEntry "a"]) = some (.arr [shortEntry "a"]) ∧
      resolveShorts (pageOfEntries [shortEntry "a"]) = some (.arr [shortEntry "a"]) ∧
      (resolveShorts JVal.null = none ∧
        (extract_shorts JVal.null).2 = Except.ok ([], none)) ∧
      resolveVideos (videosInitialPage [videoEntry "a"]) = some (.arr [videoEntry "a"]) ∧
      resolveVideos (legacyContPage [videoEntry "a"]) = some (.arr [videoEntry "a"]) ∧
      resolveVideos (pageOfEntries [videoEntry "a"]) = some (.arr [videoEntry "a"]) ∧
      (resolveVideos JVal.null = none ∧ extract_videos JVal.null = Except.ok ([], none)) :=
  ⟨(C5_shape_fallthrough (shortsInitialPage [shortEntry "a"])).1 (.arr [shortEntry "a"]) rfl,
    (C5_shape_fallthrough (legacyContPage [shortEntry "a"])).2.1
      PyErr.typeError (.arr [shortEntry "a"]) rfl rfl,
    (C5_shape_fallthrough (pageOfEntries [shortEntry "a"])).2.2.1
      PyErr.keyError PyErr.keyError (.arr [shortEntry "a"]) rfl rfl rfl,
    (C5_shape_fallthrough JVal.null).2.2.2.1
      PyErr.typeError PyErr.typeError PyErr.typeError rfl rfl rfl,
    (C5_shape_fallthrough (videosInitialPage [videoEntry "a"])).2.2.2.2.1
      (.arr [videoEntry "a"]) rfl,
    (C5_shape_fallthrough (legacyContPage [videoEntry "a"])).2.2.2.2.2.1
      PyErr.typeError (.arr [videoEntry "a"]) rfl rfl,
    (C5_shape_fallthrough (pageOfEntries [videoEntry "a"])).2.2.2.2.2.2.1
      PyErr.keyError PyErr.keyError (.arr [videoEntry "a"]) rfl rfl rfl,
    (C5_shape_fallthrough JVal.null).2.2.2.2.2.2.2
      PyErr.typeError PyErr.typeError PyErr.typeError rfl rfl rfl⟩

/-- C6: for a finite chain in which each page but the last yields a
(truthy) continuation token and the last yields none, the walker produces
exactly one batch per page and issues no further fetch after the
tokenless final page — extra pages waiting in the fetch oracle stay
unrequested; and a page that fails to resolve is treated as the end of
data (one empty batch, no retry). -/
theorem C6_chain_termination :
    (∀ (initialPage : JVal) (r0 : List String) (extra : List JVal),
        (extract_shorts initialPage).2 = Except.ok (r0, none) →
        paginate_shorts initialPage extra none = ⟨[r0], 0, none⟩) ∧
      (∀ (initialPage : JVal) (r0 : List String) (t0 : JVal) (pages : List JVal)
          (refs : List (List String)) (extra : List JVal),
        (extract_shorts initialPage).2 = Except.ok (r0, some t0) →
        pyTruthy t0 = true → chainOk pages refs →
        paginate_shorts initialPage (pages ++ extra) none =
          ⟨r0 :: refs, pages.length, none⟩) ∧
      (∀ (t p : JVal) (extra : List JVal),
        pyTruthy t = true → resolveShorts p = none →
        walkLoop none (some t) (p :: extra) = ⟨[[]], 1, none⟩) := by
  refine ⟨?_, ?_, ?_⟩
  · intro initialPage r0 extra h
    simp only [paginate_shorts, h, walkLoop_none_cont]
  · intro initialPage r0 t0 pages refs extra h ht hc
    simp only [paginate_shorts, h, walkLoop_chain extra pages refs t0 ht hc]
  · intro t p extra ht hres
    have hext : (extract_shorts p).2 = Except.ok ([], none) := by
      simp only [extract_shorts, hres]
    rw [walkLoop_step_none t p extra [] none ht hext, walkLoop_none_cont]

/-- Witness for C6: the two-page running example consumes exactly one
fetch and leaves a spare oracle page unrequested; a tokenless first page
walks alone; an unresolvable fetched page ends the loop after one empty
batch. -/
theorem C6_chain_termination_witness :
    paginate_shorts examplePage1 ([examplePage2] ++ [sparePage]) none =
        ⟨[["/shorts/a", "/shorts/b", "/shorts/c"], ["/shorts/c", "/shorts/d"]], 1, none⟩ ∧
      paginate_shorts examplePage2 [sparePage] none =
        ⟨[["/shorts/c", "/shorts/d"]], 0, none⟩ ∧
      walkLoop none (some (.str "T1")) (JVal.null :: [sparePage]) = ⟨[[]], 1, none⟩ :=
  ⟨C6_chain_termination.2.1 examplePage1 ["/shorts/a", "/shorts/b", "/shorts/c"]
      (.str "T1") [examplePage2] [["/shorts/c", "/shorts/d"]] [sparePage] rfl rfl rfl,
    C6_chain_termination.1 examplePage2 ["/shorts/c", "/shorts/d"] [sparePage] rfl,
    C6_chain_termination.2.2 (.str "T1") JVal.null [sparePage] rfl rfl⟩

/-- C7: when the boundary's canonical path occurs in the first page at
index `i`, the walker emits exactly the first page's references before
`i` (exclusive) and stops; the continuation fetch for the first page's
token is never issued (zero fetches, whatever the oracle holds). -/
theorem C7_first_page_cutoff (initialPage : JVal) (pages : List JVal) (wid : String)
    (refs : List String) (c : Option JVal) (i : Nat)
    (hext : (extract_shorts initialPage).2 = Except.ok (refs, c))
    (hidx : listIndex refs ("/shorts/" ++ wid) = some i) :
    paginate_shorts initialPage pages (some wid) = ⟨[refs.take i], 0, none⟩ := by
  simp only [paginate_shorts, hext, hidx]

/-- Witness for C7: the spec's end-to-end scenario — boundary `b` at
index 1 of the first page, output `["/shorts/a"]`, continuation fetch for
T1 never issued. -/
theorem C7_first_page_cutoff_witness :
    paginate_shorts examplePage1 [examplePage2] (some "b") =
      ⟨[["/shorts/a"]], 0, none⟩ :=
  C7_first_page_cutoff examplePage1 [examplePage2] "b"
    ["/shorts/a", "/shorts/b", "/shorts/c"] (some (.str "T1")) 1 rfl rfl

/-- C8: the deduplication function is pure, stable and order-preserving —
its output has no duplicates, contains exactly the elements of the input,
is a subsequence of the input listed in strictly increasing order of
first occurrence, and the function is idempotent. -/
theorem C8_uniqueify_contract (l : List String) :
    (uniqueify l).Nodup ∧
      (∀ x, x ∈ uniqueify l ↔ x ∈ l) ∧
      List.Sublist (uniqueify l) l ∧
      List.Pairwise (fun a b => firstIdx l a < firstIdx l b) (uniqueify l) ∧
      uniqueify (uniqueify l) = uniqueify l :=
  ⟨nodup_uniqueify l, fun x => mem_uniqueify l x, sublist_uniqueifyAux l [],
    pairwise_firstIdx_uniqueifyAux l [],
    uniqueifyAux_of_nodup (uniqueify l) [] (nodup_uniqueify l)
      (fun x _ hx => absurd hx (List.not_mem_nil x))⟩

/-- C9: every batch the shorts walker emits — initial or continuation
page, boundary or not — is individually duplicate-free and consists of
`/shorts/`-prefixed references; likewise every successful videos
extraction yields a duplicate-free batch of `/watch?v=`-prefixed
references. -/
theorem C9_batch_invariants :
    (∀ (initialPage : JVal) (pages : List JVal) (u : Option String) (b : List String),
        b ∈ (paginate_shorts initialPage pages u).batches →
        b.Nodup ∧ ∀ r ∈ b, ∃ t, r = "/shorts/" ++ t) ∧
      (∀ (d : JVal) (refs : List String) (c : Option JVal),
        extract_videos d = Except.ok (refs, c) →
        refs.Nodup ∧ ∀ r ∈ refs, ∃ t, r = "/watch?v=" ++ t) :=
  ⟨paginate_batch_props, extract_videos_ok_props⟩

/-- Witness for C9: the continuation batch of the running example walk,
and a concrete videos page. -/
theorem C9_batch_invariants_witness :
    (List.Nodup ["/shorts/c", "/shorts/d"] ∧
        ∀ r ∈ ["/shorts/c", "/shorts/d"], ∃ t, r = "/shorts/" ++ t) ∧
      (List.Nodup ["/watch?v=a", "/watch?v=b"] ∧
        ∀ r ∈ ["/watch?v=a", "/watch?v=b"], ∃ t, r = "/watch?v=" ++ t) :=
  ⟨C9_batch_invariants.1 examplePage1 [examplePage2] none
      ["/shorts/c", "/shorts/d"] (by decide),
    C9_batch_invariants.2 (videosInitialPage [videoEntry "a", videoEntry "b", contMarker "TV"])
      ["/watch?v=a", "/watch?v=b"] (some (.str "TV")) rfl⟩

/-- C10: every shorts extraction, before any shape is tried and whatever
the outcome of shape matching, writes the entire parsed document to the
fixed path `shorts_initial_data.json` — the write log of `extract_shorts`
is that single write for every input, never empty. -/
theorem C10_unconditional_dump (d : JVal) :
    (extract_shorts d).1 = [("shorts_initial_data.json", d)] ∧
      (extract_shorts d).1 ≠ [] :=
  ⟨rfl, by simp [extract_shorts]⟩
